import Mathlib

/-!
Verification of the RallyRound topic-lifecycle, interest-aggregation and
scheduling-consensus logic.

The definitions below are a shallow embedding of the TypeScript/JavaScript
source:

* `client/src/types/index.ts` — the `Topic`, `Interest`, `SchedulingConfig`,
  `TimeSlot`, `SchedulingPreference` records, and the `useTopics` hook
  (`createTopic`, `updateTopic`, `toggleInterest`, `moveToStage2`,
  `scheduleTopic`, and the auto-transition effect);
* `client/src/hooks/useScheduling` — `getConsensusProgress`,
  `isSlotGenerationLocked`, `generateSlots`;
* `server/routes` `POST /generate-slots` — the candidate-slot enumeration and
  scoring loop;
* the `SchedulingPanel` component — the regenerate-button gating.

Conventions used throughout:

* Machine numbers are modelled as `Nat`/`Int` (all quantities involved are
  small counts, minutes, or percentages; no overflow is reachable).
* JavaScript `x || d` defaulting on an optional numeric field is modelled by
  `jsOr`, which also maps an explicit `0` to the default (JS falsiness).
* `Math.round` applied to `(a / t) * 100` for natural `a ≤ t` is modelled as
  exact rational round-half-up, `(200 * a + t) / (2 * t)` in `Nat` division
  (JS rounds halves up, and for the tiny integers involved the double
  computation agrees with the exact rational).
* GunDB maps (`Map` objects in the hooks' state, keyed by SEA public key)
  are modelled as association lists; where a claim needs key distinctness
  (a JS `Map` cannot hold a key twice) it is an explicit hypothesis.
* Wall-clock time in the slot generator is modelled in minutes of local
  time, with uniform 1440-minute days (`setHours`-based code, no DST):
  `t` is the current minute-of-day of "now", `dow0` the current JS weekday
  (0 = Sunday … 6 = Saturday), and an absolute time is a minute count from
  today's local midnight.
-/

namespace RallyRound

/-- JavaScript `v || d` for an optional numeric field: `undefined` and `0`
(falsy) both fall back to the default. -/
def jsOr (v : Option Nat) (d : Nat) : Nat :=
  match v with
  | none => d
  | some 0 => d
  | some n => n

/-- JavaScript `Math.round((a / t) * 100)` for naturals with `t > 0`:
round-half-up of the exact rational `100 * a / t`. -/
def jsRoundPct (a t : Nat) : Nat :=
  (200 * a + t) / (2 * t)

/-- `SchedulingConfig` from `client/src/types`: owner-set scheduling knobs. -/
structure SchedulingConfig where
  schedulingWindowDays : Nat
  consensusThreshold : Nat
  lockAfterSelections : Nat
  deriving Repr, DecidableEq

inductive TopicType where
  | oneTime
  | recurring
  deriving Repr, DecidableEq

inductive Recurrence where
  | weekly
  | biweekly
  | monthly
  deriving Repr, DecidableEq

/-- `Topic` record from `client/src/types/index.ts`. `stage ∈ {1,2,3}` in the
source type; modelled as `Nat`. -/
structure Topic where
  id : String
  title : String
  description : String
  presenter : String
  presenterEmail : String
  presenterPub : String
  minParticipants : Nat
  maxParticipants : Option Nat
  duration : Nat
  type : TopicType
  recurrence : Option Recurrence
  stage : Nat
  createdAt : Nat
  scheduledTime : Option Nat
  schedulingConfig : Option SchedulingConfig
  deriving Repr, DecidableEq

/-- `PublicTopicRef` from `client/src/types/index.ts`: the entry written to
the `public-topics` discovery graph. -/
structure PublicTopicRef where
  id : String
  title : String
  presenter : String
  presenterPub : String
  minParticipants : Nat
  stage : Nat
  interestCount : Nat
  createdAt : Nat
  deriving Repr, DecidableEq

/-- `Interest` record from `client/src/types/index.ts`. -/
structure Interest where
  name : String
  email : String
  pub : String
  timestamp : Nat
  deriving Repr, DecidableEq

/-- The store state relevant to one topic's stage: the full record in the
owner's user space plus the `stage` field of its `public-topics` ref.
Writes from `moveToStage2` / `scheduleTopic` / `updateTopic` target both. -/
structure TopicStore where
  topic : Topic
  publicStage : Nat
  deriving Repr, DecidableEq

/-- `moveToStage2` (useTopics): `user.get('topics').get(id).get('stage').put(2)`
and the same on `public-topics` — an unconditional field write, with no read
of the currently stored stage. -/
def moveToStage2 (st : TopicStore) : TopicStore :=
  { st with topic := { st.topic with stage := 2 }, publicStage := 2 }

/-- `scheduleTopic` (useTopics): puts `{ stage: 3, scheduledTime }` in the
owner's space and `{ stage: 3 }` on the public ref, unconditionally. -/
def scheduleTopic (scheduledTime : Nat) (st : TopicStore) : TopicStore :=
  { st with
    topic := { st.topic with stage := 3, scheduledTime := some scheduledTime }
    publicStage := 3 }

/-- The partial-field update accepted by `updateTopic` (only the fields the
claims exercise; every present field is copied into the write verbatim). -/
structure TopicUpdates where
  title : Option String
  minParticipants : Option Nat
  stage : Option Nat
  deriving Repr, DecidableEq

/-- `updateTopic` (useTopics): copies every defined field of `updates` into
the stored record (`if (updates.stage !== undefined) cleanUpdates.stage = …`),
with no comparison against the current stage. -/
def updateTopic (updates : TopicUpdates) (st : TopicStore) : TopicStore :=
  let t := st.topic
  let t := match updates.title with
    | none => t
    | some v => { t with title := v }
  let t := match updates.minParticipants with
    | none => t
    | some v => { t with minParticipants := v }
  let t := match updates.stage with
    | none => t
    | some v => { t with stage := v }
  { topic := t
    publicStage := match updates.stage with
      | none => st.publicStage
      | some v => v }

/-- A concrete already-scheduled topic (stage 3). -/
def topicAtStage3 : Topic :=
  { id := "topic_1"
    title := "Intro to CRDTs"
    description := "Conflict-free replicated data types"
    presenter := "Avery"
    presenterEmail := "avery@example.com"
    presenterPub := "pubOwner"
    minParticipants := 3
    maxParticipants := none
    duration := 60
    type := TopicType.oneTime
    recurrence := none
    stage := 3
    createdAt := 0
    scheduledTime := some 1000
    schedulingConfig := none }

def storeAtStage3 : TopicStore :=
  { topic := topicAtStage3, publicStage := 3 }

/-- `AvailabilityWindow` from `client/src/types`. -/
structure AvailabilityWindow where
  start : Nat
  stop : Nat
  source : Bool
  deriving Repr, DecidableEq

/-- `SchedulingPreference` from `client/src/types`: one record per voter. -/
structure SchedulingPreference where
  userPub : String
  userName : String
  userEmail : String
  selectedSlots : List String
  availability : List AvailabilityWindow
  timestamp : Nat
  deriving Repr, DecidableEq

/-- The `preferences` state of `useScheduling`: a JS `Map` keyed by SEA pub,
modelled as an association list (key distinctness, which a `Map` guarantees,
is a hypothesis where a claim needs it). -/
abbrev PrefMap := List (String × SchedulingPreference)

/-- `topic.schedulingConfig?.lockAfterSelections || 3`. -/
def lockAfterSelectionsOf (topic : Topic) : Nat :=
  jsOr (topic.schedulingConfig.map (·.lockAfterSelections)) 3

/-- `topic.schedulingConfig?.consensusThreshold || 75`. -/
def consensusThresholdOf (topic : Topic) : Nat :=
  jsOr (topic.schedulingConfig.map (·.consensusThreshold)) 75

/-- `topic.schedulingConfig?.schedulingWindowDays || 14`. -/
def schedulingWindowDaysOf (topic : Topic) : Nat :=
  jsOr (topic.schedulingConfig.map (·.schedulingWindowDays)) 14

/-- Voters whose preference carries at least one selected slot
(`p.selectedSlots && p.selectedSlots.length > 0`). -/
def participantsWithSelections (preferences : PrefMap) : Nat :=
  (preferences.filter (fun p => ¬ p.2.selectedSlots.isEmpty)).length

/-- `isSlotGenerationLocked` (useScheduling): recomputes, from the current
preference snapshot alone, whether the number of voters with ≥ 1 selected
slot has reached `lockAfterSelections` (default 3). Nothing is persisted. -/
def isSlotGenerationLocked (topic : Topic) (preferences : PrefMap) : Bool :=
  let lockThreshold := lockAfterSelectionsOf topic
  lockThreshold ≤ participantsWithSelections preferences

/-- A preference record holding exactly the selections given. -/
def mkPref (pub name : String) (selected : List String) : SchedulingPreference :=
  { userPub := pub
    userName := name
    userEmail := name ++ "@example.com"
    selectedSlots := selected
    availability := []
    timestamp := 0 }

/-- A stage-2 topic with no explicit scheduling config (all defaults). -/
def topicAtStage2 : Topic :=
  { topicAtStage3 with id := "topic_2", stage := 2, scheduledTime := none }

/-- Three voters have each selected a slot: the lock threshold (3) is met. -/
def prefsThreeVoted : PrefMap :=
  [("pubA", mkPref "pubA" "Ada" ["slot_600"]),
   ("pubB", mkPref "pubB" "Ben" ["slot_600"]),
   ("pubC", mkPref "pubC" "Cal" ["slot_630"])]

/-- The same state after voter `pubA` cleared their selections (the write
`toggleSlotSelection` issues when deselecting the last slot). -/
def prefsOneCleared : PrefMap :=
  [("pubA", mkPref "pubA" "Ada" []),
   ("pubB", mkPref "pubB" "Ben" ["slot_600"]),
   ("pubC", mkPref "pubC" "Cal" ["slot_630"])]

/-! Interest records live in the public graph at
`topic-interests/{topicId}/{voterPub}`; a `null` put is a tombstone. -/

/-- The interest sub-graph of the store: for each `(topicId, voterPub)` key,
the live record (`some`) or nothing / a tombstone (`none`). -/
def InterestStore := String → String → Option Interest

/-- One `put` on `topic-interests/{topicId}/{voterPub}` — last-write-wins on
that single leaf, every other leaf untouched. -/
def putInterest (topicId voterPub : String) (v : Option Interest)
    (st : InterestStore) : InterestStore :=
  fun t p => if t = topicId ∧ p = voterPub then v else st t p

/-- The single write `toggleInterest` emits (useTopics): if the local
snapshot shows a live interest of `myPub` for this topic, a tombstone
(`interestRef.put(null)`); otherwise a fresh record with the current
timestamp. -/
def toggleInterestWrite (localKeys : List String) (myPub userName userEmail : String)
    (now : Nat) : Option Interest :=
  if myPub ∈ localKeys then
    none
  else
    some { name := userName, email := userEmail, pub := myPub, timestamp := now }

/-! The `useTopics` subscription keeps, per topic, a JS `Map` from voter pub
to the latest delivered record; a tombstone delivery deletes the entry. The
auto-transition effect then counts that map's keys. -/

/-- One delivered interest update for a fixed topic: the voter key together
with the delivered value (`some` record, or `none` for a tombstone). -/
abbrev InterestEvent := String × Option Interest

/-- How the subscription callback updates the per-topic key list:
`topicInterests.set(intKey, interest)` on a record (insert if absent, keep
position otherwise), `topicInterests.delete(intKey)` on a tombstone. -/
def applyInterestEvent (keys : List String) (e : InterestEvent) : List String :=
  match e.2 with
  | some _ => if e.1 ∈ keys then keys else keys ++ [e.1]
  | none => keys.filter (fun k => k ≠ e.1)

/-- The key list after a whole delivery sequence, starting from an empty map. -/
def buildInterestKeys (events : List InterestEvent) : List String :=
  events.foldl applyInterestEvent []

/-- The interest count of the auto-transition effect:
`Array.from(topicInterests.keys()).filter((pub) => pub !== topic.presenterPub).length`. -/
def interestCountFor (presenterPub : String) (keys : List String) : Nat :=
  (keys.filter (fun pub => pub ≠ presenterPub)).length

inductive WriteTarget where
  | userSpace
  | publicSpace
  deriving Repr, DecidableEq

/-- A `stage` field write emitted by the auto-transition effect, either to
the owner's user space or to the `public-topics` ref. -/
structure StageWrite where
  target : WriteTarget
  topicId : String
  stage : Nat
  deriving Repr, DecidableEq

/-- The auto-transition effect of `useTopics` (one evaluation over the
current snapshot): for every topic, skip unless it is at stage 1 AND owned
by the signed-in identity; skip if no interest map exists for it; otherwise,
when the non-owner interest count reaches `minParticipants`, put stage 2 in
the owner's space and on the public ref. With no signed-in identity the
effect returns immediately. -/
def autoTransitionWrites (mePub : Option String) (topics : List Topic)
    (interests : List (String × List String)) : List StageWrite :=
  match mePub with
  | none => []
  | some me =>
      topics.flatMap (fun topic =>
        if topic.stage ≠ 1 ∨ topic.presenterPub ≠ me then []
        else
          match List.lookup topic.id interests with
          | none => []
          | some keys =>
              if topic.minParticipants ≤ interestCountFor topic.presenterPub keys then
                [⟨WriteTarget.userSpace, topic.id, 2⟩,
                 ⟨WriteTarget.publicSpace, topic.id, 2⟩]
              else [])

/-! The server slot generator (`POST /generate-slots`). Time is modelled in
minutes of local time with uniform 1440-minute days: an absolute instant is
a minute count from today's local midnight, `t < 1440` is "now", and
`dow0` is today's JS weekday (`getDay()`: 0 = Sunday, 6 = Saturday).
Business hours are 09:00 (minute 540) to 18:00 (minute 1080). -/

/-- One participant's calendar data as posted to the endpoint:
`{ busySlots: [{start, end}] }` (times as `Int` minutes). The source field
`busy.end` is modelled as `stop` (`end` is reserved). -/
structure BusyWindow where
  start : Int
  stop : Int
  deriving Repr, DecidableEq

structure Participant where
  busySlots : List BusyWindow
  deriving Repr, DecidableEq

/-- `slotStart < busy.end && slotEnd > busy.start`: the candidate
`[slotStart, slotEnd)` overlaps the busy interval `[busy.start, busy.end)`. -/
def overlapsBusy (slotStart slotEnd : Nat) (b : BusyWindow) : Bool :=
  (slotStart : Int) < b.stop && b.start < (slotEnd : Int)

/-- `busySlots.some(busy => …)` for one participant. -/
def isBusy (p : Participant) (slotStart slotEnd : Nat) : Bool :=
  p.busySlots.any (overlapsBusy slotStart slotEnd)

/-- Participants counted available (`if (!isBusy) availableCount++`). -/
def availableCount (parts : List Participant) (slotStart slotEnd : Nat) : Nat :=
  (parts.filter (fun p => ¬ isBusy p slotStart slotEnd)).length

/-- `const totalParticipants = participantAvailability.length || 1;` — the
JS `|| 1` turns an empty participant list into a pool of size 1. -/
def totalParticipantsOf (parts : List Participant) : Nat :=
  if parts.length = 0 then 1 else parts.length

/-- `totalParticipants > 0 ? Math.round((availableCount/totalParticipants)*100) : 100`
— note that because of `|| 1` the `: 100` arm can never be taken. -/
def slotScore (parts : List Participant) (slotStart slotEnd : Nat) : Nat :=
  let tot := totalParticipantsOf parts
  if 0 < tot then jsRoundPct (availableCount parts slotStart slotEnd) tot else 100

/-- A generated candidate (`id` is derived from the start timestamp; the
source field `end` is modelled as `stop`). -/
structure GenSlot where
  id : String
  start : Nat
  stop : Nat
  score : Nat
  deriving Repr, DecidableEq

/-- The candidate built for a given absolute start minute. -/
def mkCandidate (parts : List Participant) (duration start : Nat) : GenSlot :=
  { id := "slot_" ++ toString start
    start := start
    stop := start + duration
    score := slotScore parts start (start + duration) }

/-- The inner while loop for one day: slot starts walk the 30-minute grid
from 09:00 (minute 540 of the day) while
`slotStart.getHours() < MEETING_END_HOUR - (duration / 60)`, i.e. (scaled by
60 to stay in integers) `60 * (m / 60) + duration < 1080`. The loop guard is
evaluated before each iteration and the walk never reaches minute 1080
(where the guard is false for every duration), so the loop equals
`takeWhile` over the finite grid. -/
def slotStartsForDay (duration : Nat) : List Nat :=
  ((List.range 19).map (fun j => 540 + 30 * j)).takeWhile
    (fun m => 60 * (m / 60) + duration < 1080)

/-- `currentDay.getDay()` for day `k` after today: JS weekday arithmetic. -/
def weekdayOf (dow0 k : Nat) : Nat :=
  (dow0 + k) % 7

/-- The outer day loop. `currentDay` starts at today's 09:00, is pushed to
tomorrow if 09:00 is already past (`currentDay.getTime() < now`, i.e.
`540 < t`), and runs while `currentDay < now + windowDays*24h`; Saturdays
(6) and Sundays (0) are skipped. Day `k`'s 09:00 is minute `k*1440 + 540`,
and `k*1440 + 540 < t + w*1440` with `t < 1440` forces `k ≤ w`, so
`range (w+1)` covers every day the loop can visit. -/
def dayIndices (t dow0 w : Nat) : List Nat :=
  (List.range (w + 1)).filter (fun k =>
    (if 540 < t then 1 else 0) ≤ k ∧
    k * 1440 + 540 < t + w * 1440 ∧
    weekdayOf dow0 k ≠ 0 ∧ weekdayOf dow0 k ≠ 6)

/-- The complete candidate enumeration of `POST /generate-slots` (the
`potentialSlots` array, before sorting and the top-10 cap). -/
def enumerateSlots (t dow0 duration w : Nat)
    (parts : List Participant) : List GenSlot :=
  (dayIndices t dow0 w).flatMap (fun k =>
    (slotStartsForDay duration).map (fun m => mkCandidate parts duration (k * 1440 + m)))

/-- The comparator `b.score - a.score || a.start - b.start`: descending
score, ties by ascending start. -/
def slotBefore (a b : GenSlot) : Bool :=
  b.score < a.score || (a.score == b.score && a.start ≤ b.start)

/-- `potentialSlots.sort(…)` followed by `slice(0, 10)`: the response body. -/
def generateSlots (t dow0 duration w : Nat)
    (parts : List Participant) : List GenSlot :=
  ((enumerateSlots t dow0 duration w parts).mergeSort slotBefore).take 10

/-! The consensus engine (`useScheduling`). The hook keeps slots sorted by
descending score then ascending start, and an effect refreshes each slot's
`votes` from the current preferences. -/

/-- A slot as held in the hook state: a `TimeSlot` plus the pub keys of the
voters whose selection contains it (the display-only `voterNames` array is
omitted; the source field `end` is modelled as `stop`). -/
structure SlotWithVotes where
  id : String
  start : Nat
  stop : Nat
  score : Nat
  votes : List String
  deriving Repr, DecidableEq

/-- The vote-refresh effect for one slot:
`preferences.forEach((pref, pub) => { if (pref.selectedSlots?.includes(slot.id)) votes.push(pub) })`. -/
def votesFor (preferences : PrefMap) (slotId : String) : List String :=
  (preferences.filter (fun p => slotId ∈ p.2.selectedSlots)).map Prod.fst

/-- The vote-refresh effect over the whole slot list. -/
def attachVotes (preferences : PrefMap) (slots : List SlotWithVotes) :
    List SlotWithVotes :=
  slots.map (fun slot => { slot with votes := votesFor preferences slot.id })

/-- The record `getConsensusProgress` returns. -/
structure ConsensusProgress where
  threshold : Nat
  topSlot : Option SlotWithVotes
  topSlotVotes : Nat
  topSlotPercentage : Nat
  consensusReached : Bool
  participantsVoted : Nat
  totalParticipants : Nat
  deriving Repr, DecidableEq

/-- The top-slot scan: start from `slots[0]` and replace the candidate only
on a strictly greater vote count (`voteCount > topSlotVotes`), so the first
slot attaining the maximum wins ties. -/
def pickTop (best : SlotWithVotes) (l : List SlotWithVotes) : SlotWithVotes :=
  l.foldl (fun acc s => if acc.votes.length < s.votes.length then s else acc) best

/-- `getConsensusProgress` (useScheduling), transcribed: early return with
zeroed fields when there are no preferences or no slots; otherwise scan for
the first max-vote slot, compute the rounded percentage against the number
of preference records, and compare with the threshold. -/
def getConsensusProgress (topic : Topic) (preferences : PrefMap)
    (slots : List SlotWithVotes) : ConsensusProgress :=
  let threshold := consensusThresholdOf topic
  let totalParticipants := preferences.length
  match slots with
  | [] =>
      { threshold := threshold, topSlot := none, topSlotVotes := 0
        topSlotPercentage := 0, consensusReached := false
        participantsVoted := 0, totalParticipants := totalParticipants }
  | s0 :: rest =>
      if totalParticipants = 0 then
        { threshold := threshold, topSlot := none, topSlotVotes := 0
          topSlotPercentage := 0, consensusReached := false
          participantsVoted := 0, totalParticipants := totalParticipants }
      else
        let top := pickTop s0 (s0 :: rest)
        let topSlotVotes := top.votes.length
        let pct := jsRoundPct topSlotVotes totalParticipants
        { threshold := threshold, topSlot := some top
          topSlotVotes := topSlotVotes, topSlotPercentage := pct
          consensusReached := decide (threshold ≤ pct)
          participantsVoted :=
            (preferences.filter (fun p => ¬ p.2.selectedSlots.isEmpty)).length
          totalParticipants := totalParticipants }

/-! `createTopic` (useTopics) and the regenerate path (`generateSlots` in
`useScheduling` plus the `SchedulingPanel` gating). -/

/-- The fields the create-topic form submits (the `topicData` argument of
`createTopic`). -/
structure TopicFields where
  title : String
  description : String
  presenter : String
  presenterEmail : String
  minParticipants : Nat
  maxParticipants : Option Nat
  duration : Nat
  type : TopicType
  recurrence : Option Recurrence
  schedulingConfig : Option SchedulingConfig
  deriving Repr, DecidableEq

/-- `createTopic` (useTopics): throws only when unauthenticated; otherwise
builds the topic at stage 1 from the submitted fields verbatim — there is no
check of `minParticipants`, `recurrence`, or `maxParticipants` — and writes
it to the owner's space and the public discovery graph. -/
def createTopic (auth : Option String) (id : String) (now : Nat)
    (f : TopicFields) : Except String (Topic × PublicTopicRef) :=
  match auth with
  | none => Except.error "Must be authenticated to create topics"
  | some pub =>
      let topic : Topic :=
        { id := id, title := f.title, description := f.description
          presenter := f.presenter, presenterEmail := f.presenterEmail
          presenterPub := pub, minParticipants := f.minParticipants
          maxParticipants := f.maxParticipants, duration := f.duration
          type := f.type, recurrence := f.recurrence, stage := 1
          createdAt := now, scheduledTime := none
          schedulingConfig := f.schedulingConfig }
      let publicRef : PublicTopicRef :=
        { id := id, title := f.title, presenter := f.presenter
          presenterPub := pub, minParticipants := f.minParticipants
          stage := 1, interestCount := 0, createdAt := now }
      Except.ok (topic, publicRef)

/-- Field values violating every `createTopic` precondition the claim lists
that can hold simultaneously: `minParticipants < 1` and a recurring session
with no recurrence. -/
def invalidFields : TopicFields :=
  { title := "Bad topic", description := "", presenter := "P"
    presenterEmail := "p@example.com", minParticipants := 0
    maxParticipants := none, duration := 60, type := TopicType.recurring
    recurrence := none, schedulingConfig := none }

/-- The outcome of the client regenerate path. A `lockedError` constructor
is present so the claimed behaviour is expressible; no code path produces
it. -/
inductive RegenResult where
  | ok (slots : List GenSlot)
  | lockedError
  | fetchError
  deriving Repr, DecidableEq

/-- `generateSlots` (useScheduling): builds `participantAvailability` with
one `{ busySlots: [] }` entry per preference ("Simplified for now"), posts
to `/scheduling/generate-slots`, and stores whatever comes back. It never
consults `isSlotGenerationLocked`; it fails only if the fetch fails. -/
def clientGenerateSlots (topic : Topic) (preferences : PrefMap)
    (t dow0 : Nat) (fetchOk : Bool) : RegenResult :=
  let participantAvailability :=
    preferences.map (fun _ => ({ busySlots := [] } : Participant))
  let windowDays := schedulingWindowDaysOf topic
  if fetchOk then
    RegenResult.ok (generateSlots t dow0 topic.duration windowDays participantAvailability)
  else
    RegenResult.fetchError

/-- The `SchedulingPanel` gating: the regenerate button renders only when
`isOwner && !isLocked`. -/
def showRegenerateControl (isOwner isLocked : Bool) : Bool :=
  isOwner && !isLocked

/-- A stage-1 topic owned by `pubOwner` with `minParticipants = 1`. -/
def topicAtStage1 : Topic :=
  { topicAtStage3 with
    id := "topic_0", stage := 1, scheduledTime := none, minParticipants := 1 }

/-- A concrete delivery sequence: live interests from the owner and `pubA`,
then a tombstone for `pubB`. -/
def eventsSample : List InterestEvent :=
  [("pubA", some { name := "Ada", email := "a@example.com", pub := "pubA", timestamp := 1 }),
   ("pubOwner", some { name := "Avery", email := "avery@example.com", pub := "pubOwner", timestamp := 2 }),
   ("pubB", none)]

/-- The same records delivered in reverse order. -/
def eventsSampleRev : List InterestEvent :=
  eventsSample.reverse

/-- A concrete slot with two votes, for witnesses. -/
def slotA : SlotWithVotes :=
  { id := "slot_600", start := 600, stop := 660, score := 100
    votes := ["pubA", "pubB"] }

/-- A concrete slot with one vote, for witnesses. -/
def slotB : SlotWithVotes :=
  { id := "slot_630", start := 630, stop := 690, score := 50
    votes := ["pubC"] }

end RallyRound

namespace RallyRound

/-- C1 counterexample: `moveToStage2` on a topic currently at stage 3 writes
stage 2 — the stage decreases instead of staying at 3, so no stage write is
"rejected" as the claim requires. -/
theorem C1_counterexample :
    storeAtStage3.topic.stage = 3 ∧
    (moveToStage2 storeAtStage3).topic.stage = 2 ∧
    (moveToStage2 storeAtStage3).publicStage = 2 := by
  refine ⟨rfl, rfl, rfl⟩

/-- C1 (amended): the stage-writing operations perform no monotonicity check
at all — `moveToStage2` always writes stage 2, `scheduleTopic` always writes
stage 3, and `updateTopic` writes whatever stage value it is handed — so a
`moveToStage2` (or a stage-carrying `updateTopic`) issued against a topic at
a higher stage decreases the stored stage. -/
theorem C1_stage_writes_unconditional (st : TopicStore) (time : Nat)
    (u : TopicUpdates) :
    (moveToStage2 st).topic.stage = 2 ∧
    (moveToStage2 st).publicStage = 2 ∧
    (scheduleTopic time st).topic.stage = 3 ∧
    (scheduleTopic time st).publicStage = 3 ∧
    (updateTopic u st).topic.stage = u.stage.getD st.topic.stage := by
  refine ⟨rfl, rfl, rfl, rfl, ?_⟩
  cases u with
  | mk title minP stg =>
    cases title <;> cases minP <;> cases stg <;> rfl

/-- C2 counterexample: with the default `lockAfterSelections = 3`, three
voters with selections make `isSlotGenerationLocked` return `true`; after one
of them clears their selections the same call returns `false` — the lock is
recomputed from the instantaneous count and does not stay `true`. -/
theorem C2_counterexample :
    isSlotGenerationLocked topicAtStage2 prefsThreeVoted = true ∧
    isSlotGenerationLocked topicAtStage2 prefsOneCleared = false := by
  refine ⟨by decide, by decide⟩

/-- Folding the subscription handler over a delivery sequence whose keys are
pairwise distinct appends exactly the keys of the live (non-tombstoned)
records to the accumulator. -/
theorem foldl_applyInterestEvent :
    ∀ (events : List InterestEvent) (acc : List String),
      (events.map Prod.fst).Nodup →
      (∀ a ∈ acc, a ∉ events.map Prod.fst) →
      events.foldl applyInterestEvent acc
        = acc ++ (events.filter (fun e => e.2.isSome)).map Prod.fst := by
  intro events
  induction events with
  | nil => intro acc _ _; simp
  | cons e es ih =>
    intro acc hnd hdisj
    obtain ⟨k, v⟩ := e
    simp only [List.map_cons, List.nodup_cons] at hnd
    obtain ⟨hknotin, hnd'⟩ := hnd
    have hdisj' : ∀ a ∈ acc, a ∉ es.map Prod.fst := by
      intro a ha hmem
      exact hdisj a ha (by simp [hmem])
    have hk : k ∉ acc := by
      intro hkacc
      exact hdisj k hkacc (by simp)
    cases v with
    | some r =>
      have step : applyInterestEvent acc (k, some r) = acc ++ [k] := by
        simp only [applyInterestEvent, if_neg hk]
      rw [List.foldl_cons, step, ih (acc ++ [k]) hnd' ?_]
      · simp [List.filter_cons]
      · intro a ha
        rcases List.mem_append.mp ha with h | h
        · exact hdisj' a h
        · have hak : a = k := by simpa using h
          exact hak ▸ hknotin
    | none =>
      have step : applyInterestEvent acc (k, none) = acc := by
        simp only [applyInterestEvent]
        exact List.filter_eq_self.mpr (by
          intro a ha
          simp only [decide_eq_true_eq, ne_eq]
          intro hak
          exact hk (hak ▸ ha))
      rw [List.foldl_cons, step, ih acc hnd' hdisj']
      simp [List.filter_cons]

/-- With pairwise-distinct keys, the key list built by the subscription is
exactly the keys of the delivered live records. -/
theorem buildInterestKeys_eq (events : List InterestEvent)
    (hnd : (events.map Prod.fst).Nodup) :
    buildInterestKeys events
      = (events.filter (fun e => e.2.isSome)).map Prod.fst := by
  have := foldl_applyInterestEvent events [] hnd (by intro a ha; simp at ha)
  simpa [buildInterestKeys] using this

/-- The interest count derived from a delivery sequence, as a `countP` over
the delivered events. -/
theorem interestCountFor_buildInterestKeys (owner : String)
    (events : List InterestEvent)
    (hnd : (events.map Prod.fst).Nodup) :
    interestCountFor owner (buildInterestKeys events)
      = events.countP (fun e => e.2.isSome && (e.1 != owner)) := by
  rw [interestCountFor, buildInterestKeys_eq events hnd,
    ← List.countP_eq_length_filter, List.countP_map, List.countP_filter]
  refine List.countP_congr ?_
  intro e _
  simp [Function.comp, Bool.and_comm]

/-- C3: for every order of delivery of a set of per-identity interest records,
the distinct interest count equals the number of identities with a live
(non-tombstoned) record other than the owner; and the auto-transition effect
(evaluated where it runs, on the owner's client) writes stage 2 — to the
owner's space and the public ref — whenever the topic is at stage 1 and that
count reaches `minParticipants`. -/
theorem C3_interest_count_and_auto_transition
    (owner me : String) (topic : Topic)
    (events events' : List InterestEvent)
    (hnd : (events.map Prod.fst).Nodup)
    (hperm : events.Perm events') :
    (interestCountFor owner (buildInterestKeys events)
        = events.countP (fun e => e.2.isSome && (e.1 != owner))) ∧
    (interestCountFor owner (buildInterestKeys events')
        = interestCountFor owner (buildInterestKeys events)) ∧
    (topic.stage = 1 → topic.presenterPub = me →
      topic.minParticipants
          ≤ interestCountFor topic.presenterPub (buildInterestKeys events) →
      autoTransitionWrites (some me) [topic] [(topic.id, buildInterestKeys events)]
        = [⟨WriteTarget.userSpace, topic.id, 2⟩,
           ⟨WriteTarget.publicSpace, topic.id, 2⟩]) := by
  have hnd' : (events'.map Prod.fst).Nodup := ((hperm.map Prod.fst).nodup_iff).mp hnd
  refine ⟨interestCountFor_buildInterestKeys owner events hnd, ?_, ?_⟩
  · rw [interestCountFor_buildInterestKeys owner events' hnd',
      interestCountFor_buildInterestKeys owner events hnd]
    exact (hperm.symm.countP_eq _)
  · intro h1 h2 h3
    simp only [autoTransitionWrites, List.flatMap_cons, List.flatMap_nil,
      List.append_nil]
    rw [if_neg (by simp [h1, h2])]
    have hlk : List.lookup topic.id [(topic.id, buildInterestKeys events)]
        = some (buildInterestKeys events) := by
      simp [List.lookup]
    rw [hlk]
    show (if topic.minParticipants
            ≤ interestCountFor topic.presenterPub (buildInterestKeys events) then
          [⟨WriteTarget.userSpace, topic.id, 2⟩,
           ⟨WriteTarget.publicSpace, topic.id, 2⟩]
        else ([] : List StageWrite))
      = [⟨WriteTarget.userSpace, topic.id, 2⟩,
         ⟨WriteTarget.publicSpace, topic.id, 2⟩]
    rw [if_pos h3]

/-- C9: the write emitted by `toggleInterest` — a tombstone if the local
snapshot already holds a live interest for this identity, a fresh record
otherwise — is idempotent under replay: delivering the same put to the
interest graph twice leaves exactly the store (and hence exactly the live
interest membership) that delivering it once leaves. -/
theorem C9_toggleInterest_replay_idempotent
    (topicId myPub userName userEmail : String) (now : Nat)
    (localKeys : List String) (st : InterestStore) :
    (putInterest topicId myPub (toggleInterestWrite localKeys myPub userName userEmail now)
        (putInterest topicId myPub (toggleInterestWrite localKeys myPub userName userEmail now) st)
      = putInterest topicId myPub (toggleInterestWrite localKeys myPub userName userEmail now) st) ∧
    (∀ t p,
      (putInterest topicId myPub (toggleInterestWrite localKeys myPub userName userEmail now)
          (putInterest topicId myPub (toggleInterestWrite localKeys myPub userName userEmail now) st) t p).isSome
        = (putInterest topicId myPub (toggleInterestWrite localKeys myPub userName userEmail now) st t p).isSome) := by
  have hst : putInterest topicId myPub (toggleInterestWrite localKeys myPub userName userEmail now)
      (putInterest topicId myPub (toggleInterestWrite localKeys myPub userName userEmail now) st)
    = putInterest topicId myPub (toggleInterestWrite localKeys myPub userName userEmail now) st := by
    funext t p
    by_cases h : t = topicId ∧ p = myPub
    · simp [putInterest, h]
    · simp only [putInterest, if_neg h]
  exact ⟨hst, fun t p => by rw [hst]⟩

/-- C10: the auto-transition effect only ever writes for topics owned by the
evaluating client's identity: every emitted write is a stage-2 write for a
stage-1 topic whose `presenterPub` equals that identity; consequently a
client that owns none of a topic's records (identity ≠ `presenterPub`)
writes nothing for that topic — its stage (and every other field) is left
unchanged — and an unauthenticated client writes nothing at all. -/
theorem C10_auto_transition_owner_only
    (me : String) (topics : List Topic)
    (interests : List (String × List String))
    (hids : (topics.map Topic.id).Nodup) :
    (∀ w ∈ autoTransitionWrites (some me) topics interests,
        ∃ tp ∈ topics, tp.id = w.topicId ∧ tp.presenterPub = me ∧
          tp.stage = 1 ∧ w.stage = 2) ∧
    (∀ topic ∈ topics, topic.presenterPub ≠ me →
        ∀ w ∈ autoTransitionWrites (some me) topics interests,
          w.topicId ≠ topic.id) ∧
    autoTransitionWrites none topics interests = [] := by
  have hmem : ∀ w ∈ autoTransitionWrites (some me) topics interests,
      ∃ tp ∈ topics, tp.id = w.topicId ∧ tp.presenterPub = me ∧
        tp.stage = 1 ∧ w.stage = 2 := by
    intro w hw
    simp only [autoTransitionWrites] at hw
    obtain ⟨tp, htp, hwin⟩ := List.mem_flatMap.mp hw
    refine ⟨tp, htp, ?_⟩
    by_cases hguard : tp.stage ≠ 1 ∨ tp.presenterPub ≠ me
    · rw [if_pos hguard] at hwin
      simp at hwin
    · rw [if_neg hguard] at hwin
      push_neg at hguard
      obtain ⟨hstage, howner⟩ := hguard
      cases hlk : List.lookup tp.id interests with
      | none => rw [hlk] at hwin; simp at hwin
      | some keys =>
        rw [hlk] at hwin
        have hwin' : w ∈ (if tp.minParticipants
              ≤ interestCountFor tp.presenterPub keys then
            ([⟨WriteTarget.userSpace, tp.id, 2⟩,
              ⟨WriteTarget.publicSpace, tp.id, 2⟩] : List StageWrite)
          else []) := hwin
        by_cases hcnt : tp.minParticipants ≤ interestCountFor tp.presenterPub keys
        · rw [if_pos hcnt] at hwin'
          rcases List.mem_cons.mp hwin' with h | h
          · subst h; exact ⟨rfl, howner, hstage, rfl⟩
          · rcases List.mem_cons.mp h with h2 | h2
            · subst h2; exact ⟨rfl, howner, hstage, rfl⟩
            · simp at h2
        · rw [if_neg hcnt] at hwin'
          simp at hwin'
  refine ⟨hmem, ?_, rfl⟩
  intro topic htopic hnotme w hw heq
  obtain ⟨tp, htp, hid, howner, _, _⟩ := hmem w hw
  have : tp = topic :=
    List.inj_on_of_nodup_map hids htp htopic (by rw [hid, heq])
  exact hnotme (this ▸ howner)

/-- Defaulting with a positive fallback yields a positive value (a configured
`0` is falsy in JS and also falls back). -/
theorem jsOr_pos (v : Option Nat) (d : Nat) (hd : 0 < d) : 0 < jsOr v d := by
  cases v with
  | none => exact hd
  | some n =>
    cases n with
    | zero => exact hd
    | succ k => exact Nat.succ_pos k

/-- The integer round-half-up `(200a + t) / (2t)` agrees with
`round (100 * a / t)` over `ℚ`, matching `Math.round((a/t)*100)`. -/
theorem jsRoundPct_eq_round (a t : Nat) (ht : 0 < t) :
    (jsRoundPct a t : ℤ) = round ((100 * a : ℚ) / t) := by
  have ht' : (t : ℚ) ≠ 0 := Nat.cast_ne_zero.mpr ht.ne'
  rw [round_eq]
  have hq : (100 * a : ℚ) / t + 1 / 2 = ((200 * a + t : ℕ) : ℚ) / ((2 * t : ℕ) : ℚ) := by
    push_cast
    field_simp
    ring
  rw [hq, Rat.floor_natCast_div_natCast]
  simp [jsRoundPct]

/-- A `while`-style prefix equals a filter when the predicate can only turn
from true to false along the list. -/
theorem takeWhile_eq_filter_of_pairwise {α : Type} {p : α → Bool} :
    ∀ l : List α, l.Pairwise (fun a b => p b = true → p a = true) →
      l.takeWhile p = l.filter p := by
  intro l
  induction l with
  | nil => intro _; rfl
  | cons x xs ih =>
    intro hp
    rw [List.pairwise_cons] at hp
    obtain ⟨hx, hp'⟩ := hp
    by_cases hpx : p x = true
    · simp [List.takeWhile_cons, List.filter_cons, hpx, ih hp']
    · have hnil : xs.filter p = [] :=
        List.filter_eq_nil_iff.mpr (fun a ha hpa => hpx (hx a ha hpa))
      simp [List.takeWhile_cons, List.filter_cons, hpx, hnil]

/-- Membership in the per-day slot-start list: exactly the 30-minute grid
points from 09:00 whose whole hour satisfies the loop guard
`getHours() < 18 - duration/60`, scaled to integers. -/
theorem mem_slotStartsForDay (duration m : Nat) :
    m ∈ slotStartsForDay duration ↔
      540 ≤ m ∧ m % 30 = 0 ∧ 60 * (m / 60) + duration < 1080 := by
  have hpair : ((List.range 19).map (fun j => 540 + 30 * j)).Pairwise
      (fun a b => (decide (60 * (b / 60) + duration < 1080)) = true →
        (decide (60 * (a / 60) + duration < 1080)) = true) := by
    refine List.Pairwise.map _ ?_ (List.pairwise_lt_range 19)
    intro a b hab
    simp only [decide_eq_true_eq]
    intro hb
    have hdiv : (540 + 30 * a) / 60 ≤ (540 + 30 * b) / 60 :=
      Nat.div_le_div_right (by omega)
    omega
  rw [slotStartsForDay, takeWhile_eq_filter_of_pairwise _ hpair, List.mem_filter,
    List.mem_map]
  constructor
  · rintro ⟨⟨j, hj, rfl⟩, hcond⟩
    rw [List.mem_range] at hj
    simp only [decide_eq_true_eq] at hcond
    exact ⟨by omega, by omega, hcond⟩
  · rintro ⟨h540, h30, hcond⟩
    refine ⟨⟨(m - 540) / 30, ?_, ?_⟩, by simpa using hcond⟩
    · rw [List.mem_range]
      omega
    · omega

/-- Membership in the enumerated day list unfolds to the loop's conditions
(range bound, start-day skip, window bound, weekend skip). -/
theorem mem_dayIndices (t dow0 w k : Nat) :
    k ∈ dayIndices t dow0 w ↔
      k < w + 1 ∧ (if 540 < t then 1 else 0) ≤ k ∧
        k * 1440 + 540 < t + w * 1440 ∧
        weekdayOf dow0 k ≠ 0 ∧ weekdayOf dow0 k ≠ 6 := by
  rw [dayIndices, List.mem_filter, List.mem_range]
  simp only [decide_eq_true_eq, and_assoc]

/-- Membership in the full candidate enumeration: a day from the day loop
and a grid start from that day's inner loop. -/
theorem mem_enumerateSlots (t dow0 duration w : Nat) (parts : List Participant)
    (s : GenSlot) :
    s ∈ enumerateSlots t dow0 duration w parts ↔
      ∃ k ∈ dayIndices t dow0 w, ∃ m ∈ slotStartsForDay duration,
        s = mkCandidate parts duration (k * 1440 + m) := by
  simp only [enumerateSlots, List.mem_flatMap, List.mem_map]
  constructor
  · rintro ⟨k, hk, m, hm, rfl⟩
    exact ⟨k, hk, m, hm, rfl⟩
  · rintro ⟨k, hk, m, hm, rfl⟩
    exact ⟨k, hk, m, hm, rfl⟩

/-- The fold that scans for the top slot returns the first element of
`best :: l` attaining the maximum vote count: it dominates every element,
and everything strictly before it in the list has strictly fewer votes. -/
theorem pickTop_spec :
    ∀ (l : List SlotWithVotes) (best : SlotWithVotes),
      (∀ x ∈ l, x.votes.length ≤ (pickTop best l).votes.length) ∧
      best.votes.length ≤ (pickTop best l).votes.length ∧
      ∃ l1 l2, best :: l = l1 ++ (pickTop best l) :: l2 ∧
        ∀ x ∈ l1, x.votes.length < (pickTop best l).votes.length := by
  intro l
  induction l with
  | nil =>
    intro best
    exact ⟨by simp, le_refl _, [], [], rfl, by simp⟩
  | cons s rest ih =>
    intro best
    by_cases hbs : best.votes.length < s.votes.length
    · obtain ⟨H1, H2, l1, l2, hdec, hlt⟩ := ih s
      have hm : pickTop best (s :: rest) = pickTop s rest := by
        simp [pickTop, List.foldl_cons, if_pos hbs]
      rw [hm]
      refine ⟨?_, le_of_lt (lt_of_lt_of_le hbs H2), best :: l1, l2, ?_, ?_⟩
      · intro x hx
        rcases List.mem_cons.mp hx with rfl | h
        · exact H2
        · exact H1 x h
      · rw [List.cons_append, ← hdec]
      · intro x hx
        rcases List.mem_cons.mp hx with rfl | h
        · exact lt_of_lt_of_le hbs H2
        · exact hlt x h
    · obtain ⟨H1, H2, l1, l2, hdec, hlt⟩ := ih best
      have hm : pickTop best (s :: rest) = pickTop best rest := by
        simp [pickTop, List.foldl_cons, if_neg hbs]
      rw [hm]
      push_neg at hbs
      cases l1 with
      | nil =>
        simp only [List.nil_append] at hdec
        have hb : best = pickTop best rest := (List.cons_eq_cons.mp hdec).1
        have hb' : best.votes.length = (pickTop best rest).votes.length :=
          congrArg (fun z => z.votes.length) hb
        refine ⟨?_, H2, [], s :: rest, ?_, by simp⟩
        · intro x hx
          rcases List.mem_cons.mp hx with rfl | h
          · exact hbs.trans (le_of_eq hb')
          · exact H1 x h
        · simp only [List.nil_append, ← hb]
      | cons b l1' =>
        simp only [List.cons_append] at hdec
        have hb : b = best := ((List.cons_eq_cons.mp hdec).1).symm
        have hrest : rest = l1' ++ pickTop best rest :: l2 :=
          (List.cons_eq_cons.mp hdec).2
        have hbestlt : best.votes.length < (pickTop best rest).votes.length := by
          have := hlt b (by simp)
          rwa [hb] at this
        refine ⟨?_, H2, best :: s :: l1', l2, ?_, ?_⟩
        · intro x hx
          rcases List.mem_cons.mp hx with rfl | h
          · exact hbs.trans H2
          · exact H1 x h
        · simp only [List.cons_append]
          rw [← hrest]
        · intro x hx
          rcases List.mem_cons.mp hx with rfl | h
          · exact hbestlt
          · rcases List.mem_cons.mp h with rfl | h2
            · exact lt_of_le_of_lt hbs hbestlt
            · exact hlt x (List.mem_cons_of_mem b h2)

/-- The initial `topSlot = slots[0]` makes the loop's first visit to
`slots[0]` a no-op (`voteCount > topSlotVotes` is irreflexive). -/
theorem pickTop_cons_self (s0 : SlotWithVotes) (rest : List SlotWithVotes) :
    pickTop s0 (s0 :: rest) = pickTop s0 rest := by
  simp [pickTop, List.foldl_cons]

/-- `getConsensusProgress` on an empty slot list: the zeroed early return. -/
theorem getConsensusProgress_nil (topic : Topic) (preferences : PrefMap) :
    getConsensusProgress topic preferences []
      = { threshold := consensusThresholdOf topic, topSlot := none
          topSlotVotes := 0, topSlotPercentage := 0, consensusReached := false
          participantsVoted := 0, totalParticipants := preferences.length } := rfl

/-- `getConsensusProgress` with no preferences: the zeroed early return. -/
theorem getConsensusProgress_zero (topic : Topic) (preferences : PrefMap)
    (s0 : SlotWithVotes) (rest : List SlotWithVotes)
    (hp : preferences.length = 0) :
    getConsensusProgress topic preferences (s0 :: rest)
      = { threshold := consensusThresholdOf topic, topSlot := none
          topSlotVotes := 0, topSlotPercentage := 0, consensusReached := false
          participantsVoted := 0, totalParticipants := preferences.length } := by
  simp only [getConsensusProgress]
  rw [if_pos hp]

/-- `getConsensusProgress` on the main path: scan, percentage, threshold. -/
theorem getConsensusProgress_cons (topic : Topic) (preferences : PrefMap)
    (s0 : SlotWithVotes) (rest : List SlotWithVotes)
    (hp : preferences.length ≠ 0) :
    getConsensusProgress topic preferences (s0 :: rest)
      = { threshold := consensusThresholdOf topic
          topSlot := some (pickTop s0 (s0 :: rest))
          topSlotVotes := (pickTop s0 (s0 :: rest)).votes.length
          topSlotPercentage :=
            jsRoundPct (pickTop s0 (s0 :: rest)).votes.length preferences.length
          consensusReached :=
            decide (consensusThresholdOf topic ≤
              jsRoundPct (pickTop s0 (s0 :: rest)).votes.length preferences.length)
          participantsVoted :=
            (preferences.filter (fun p => ¬ p.2.selectedSlots.isEmpty)).length
          totalParticipants := preferences.length } := by
  simp only [getConsensusProgress]
  rw [if_neg hp]

/-- C2 (amended): `isSlotGenerationLocked` is a pure recomputation from the
current preference snapshot — it returns `true` exactly when the
instantaneous number of voters with at least one selected slot reaches
`lockAfterSelections` (default 3). No high-water mark is persisted, so a
later snapshot with fewer selections makes it return `false` again. -/
theorem C2_lock_recomputed (topic : Topic) (preferences : PrefMap) :
    (isSlotGenerationLocked topic preferences = true ↔
      lockAfterSelectionsOf topic ≤
        (preferences.countP (fun p => ¬ p.2.selectedSlots.isEmpty))) ∧
    (topic.schedulingConfig = none → lockAfterSelectionsOf topic = 3) := by
  constructor
  · rw [isSlotGenerationLocked, participantsWithSelections,
      ← List.countP_eq_length_filter]
    exact decide_eq_true_iff
  · intro h
    rw [lockAfterSelectionsOf, h]
    rfl

/-- C4: `getConsensusProgress` reports `totalParticipants` as the number of
distinct voters with a submitted preference; the percentage is `0` when
nobody has submitted one; `consensusReached` holds exactly when the rounded
percentage reaches the configured threshold (75 when no config is set); and
on the main path the reported top slot is the first slot of the (already
score-sorted) list attaining the maximum vote count, with
`topSlotPercentage = round(100 · topSlotVotes / totalParticipants)`. -/
theorem C4_getConsensusProgress_spec (topic : Topic) (preferences : PrefMap)
    (slots : List SlotWithVotes)
    (hnd : (preferences.map Prod.fst).Nodup) :
    ((getConsensusProgress topic preferences slots).totalParticipants
        = (preferences.map Prod.fst).dedup.length) ∧
    ((getConsensusProgress topic preferences slots).totalParticipants = 0 →
      (getConsensusProgress topic preferences slots).topSlotPercentage = 0) ∧
    ((getConsensusProgress topic preferences slots).consensusReached = true ↔
      consensusThresholdOf topic
        ≤ (getConsensusProgress topic preferences slots).topSlotPercentage) ∧
    (topic.schedulingConfig = none → consensusThresholdOf topic = 75) ∧
    (slots ≠ [] → preferences ≠ [] →
      ∃ m l1 l2,
        (getConsensusProgress topic preferences slots).topSlot = some m ∧
        slots = l1 ++ m :: l2 ∧
        (∀ x ∈ slots, x.votes.length ≤ m.votes.length) ∧
        (∀ x ∈ l1, x.votes.length < m.votes.length) ∧
        (getConsensusProgress topic preferences slots).topSlotVotes
          = m.votes.length ∧
        ((getConsensusProgress topic preferences slots).topSlotPercentage : ℤ)
          = round ((100 * m.votes.length : ℚ) / preferences.length)) := by
  have hdedup : (preferences.map Prod.fst).dedup.length = preferences.length := by
    rw [List.Nodup.dedup hnd, List.length_map]
  have hthr75 : topic.schedulingConfig = none → consensusThresholdOf topic = 75 := by
    intro h
    rw [consensusThresholdOf, h]
    rfl
  have hthr_pos : 0 < consensusThresholdOf topic :=
    jsOr_pos _ _ (by omega)
  cases slots with
  | nil =>
    rw [getConsensusProgress_nil]
    refine ⟨hdedup.symm, fun _ => rfl, ?_, hthr75, fun hs _ => absurd rfl hs⟩
    constructor
    · intro h
      exact absurd h (by simp)
    · intro h
      have h0 : consensusThresholdOf topic ≤ 0 := h
      omega
  | cons s0 rest =>
    by_cases hp : preferences.length = 0
    · rw [getConsensusProgress_zero topic preferences s0 rest hp]
      refine ⟨hdedup.symm, fun _ => rfl, ?_, hthr75, ?_⟩
      · constructor
        · intro h
          exact absurd h (by simp)
        · intro h
          have h0 : consensusThresholdOf topic ≤ 0 := h
          omega
      · intro _ hpref
        exact absurd (List.length_eq_zero.mp hp) hpref
    · rw [getConsensusProgress_cons topic preferences s0 rest hp]
      refine ⟨hdedup.symm, fun h => absurd h hp, decide_eq_true_iff, hthr75, ?_⟩
      intro _ _
      obtain ⟨H1, H2, l1, l2, hdec, hlt⟩ := pickTop_spec rest s0
      refine ⟨pickTop s0 (s0 :: rest), l1, l2, rfl, ?_, ?_, ?_, rfl, ?_⟩
      · rw [pickTop_cons_self]
        exact hdec
      · intro x hx
        rw [pickTop_cons_self]
        rcases List.mem_cons.mp hx with rfl | h
        · exact H2
        · exact H1 x h
      · intro x hx
        rw [pickTop_cons_self]
        exact hlt x hx
      · rw [pickTop_cons_self]
        exact jsRoundPct_eq_round _ _ (Nat.pos_of_ne_zero hp)

/-- C4 witness: the specification instantiated on a concrete topic (default
config), three voters, and two slots. -/
theorem C4_getConsensusProgress_spec_witness :
    (prefsThreeVoted.map Prod.fst).Nodup ∧
    (((getConsensusProgress topicAtStage2 prefsThreeVoted [slotA, slotB]).totalParticipants
        = (prefsThreeVoted.map Prod.fst).dedup.length) ∧
    ((getConsensusProgress topicAtStage2 prefsThreeVoted [slotA, slotB]).totalParticipants = 0 →
      (getConsensusProgress topicAtStage2 prefsThreeVoted [slotA, slotB]).topSlotPercentage = 0) ∧
    ((getConsensusProgress topicAtStage2 prefsThreeVoted [slotA, slotB]).consensusReached = true ↔
      consensusThresholdOf topicAtStage2
        ≤ (getConsensusProgress topicAtStage2 prefsThreeVoted [slotA, slotB]).topSlotPercentage) ∧
    (topicAtStage2.schedulingConfig = none → consensusThresholdOf topicAtStage2 = 75) ∧
    (([slotA, slotB] : List SlotWithVotes) ≠ [] → prefsThreeVoted ≠ [] →
      ∃ m l1 l2,
        (getConsensusProgress topicAtStage2 prefsThreeVoted [slotA, slotB]).topSlot = some m ∧
        ([slotA, slotB] : List SlotWithVotes) = l1 ++ m :: l2 ∧
        (∀ x ∈ ([slotA, slotB] : List SlotWithVotes), x.votes.length ≤ m.votes.length) ∧
        (∀ x ∈ l1, x.votes.length < m.votes.length) ∧
        (getConsensusProgress topicAtStage2 prefsThreeVoted [slotA, slotB]).topSlotVotes
          = m.votes.length ∧
        ((getConsensusProgress topicAtStage2 prefsThreeVoted [slotA, slotB]).topSlotPercentage : ℤ)
          = round ((100 * m.votes.length : ℚ) / prefsThreeVoted.length))) :=
  ⟨by decide,
   C4_getConsensusProgress_spec topicAtStage2 prefsThreeVoted [slotA, slotB] (by decide)⟩

/-- C5 (code evaluated at the failing input): with an empty
`participantAvailability` (zero participants) the enumeration is non-empty
and every generated candidate has score `0`, not the `100` the claim
requires — `length || 1` makes the zero-participant pool size `1`, so the
`: 100` arm of the score ternary is unreachable and the score becomes
`round(0/1 · 100) = 0`. -/
theorem C5_zero_participants_score_is_zero :
    enumerateSlots 0 1 60 1 [] ≠ [] ∧
    ((enumerateSlots 0 1 60 1 []).map GenSlot.score).all (fun sc => sc == 0) = true ∧
    slotScore [] 540 600 = 0 ∧ totalParticipantsOf [] = 1 :=
  ⟨by decide, by decide, by decide, by decide⟩

/-- C6 counterexample: with duration 60, the grid start 17:00 (minute 1020)
satisfies the claim's criterion — `1020 + 60` does not cross past 18:00
(minute 1080) — yet it is not enumerated: neither in the per-day inner loop
nor anywhere in a full enumeration (Monday, one-day window). -/
theorem C6_counterexample :
    540 ≤ 1020 ∧ 1020 % 30 = 0 ∧ 1020 + 60 ≤ 1080 ∧
    1020 ∉ slotStartsForDay 60 ∧
    ((enumerateSlots 0 1 60 1 []).map GenSlot.start).all (fun s => s != 1020) = true :=
  ⟨by decide, by decide, by decide, by decide, by decide⟩

/-- C6 (amended): candidates are exactly the 30-minute grid points from
09:00 on the enumerated business days, but the inclusion criterion is the
loop guard `getHours() < 18 − duration/60` — scaled to integers,
`60·⌊start/60⌋ + duration < 1080` — not "start + duration does not cross
past 18:00". Consequently a 60-minute slot starting 17:00 (ending exactly
18:00) is excluded, while a 45-minute slot starting 17:30 (ending 18:15,
crossing past 18:00) is included. -/
theorem C6_enumeration_characterized :
    (∀ duration m, m ∈ slotStartsForDay duration ↔
      540 ≤ m ∧ m % 30 = 0 ∧ 60 * (m / 60) + duration < 1080) ∧
    (∀ t dow0 duration w parts s,
      s ∈ enumerateSlots t dow0 duration w parts ↔
        ∃ k ∈ dayIndices t dow0 w, ∃ m ∈ slotStartsForDay duration,
          s = mkCandidate parts duration (k * 1440 + m)) ∧
    (∀ t dow0 w k, k ∈ dayIndices t dow0 w ↔
      k < w + 1 ∧ (if 540 < t then 1 else 0) ≤ k ∧
        k * 1440 + 540 < t + w * 1440 ∧
        weekdayOf dow0 k ≠ 0 ∧ weekdayOf dow0 k ≠ 6) ∧
    (1020 ∉ slotStartsForDay 60 ∧ 1050 ∈ slotStartsForDay 45 ∧ 1080 < 1050 + 45) :=
  ⟨mem_slotStartsForDay,
   fun t dow0 duration w parts s => mem_enumerateSlots t dow0 duration w parts s,
   fun t dow0 w k => mem_dayIndices t dow0 w k,
   by decide, by decide, by decide⟩

/-- C7 counterexample: in a state where `isSlotGenerationLocked` is `true`
(three voters with selections, default lock threshold), the regenerate path
still succeeds — it returns the freshly generated slots and not a
`LockedError`. -/
theorem C7_counterexample :
    isSlotGenerationLocked topicAtStage2 prefsThreeVoted = true ∧
    clientGenerateSlots topicAtStage2 prefsThreeVoted 0 1 true
      = RegenResult.ok (generateSlots 0 1 60 14
          (prefsThreeVoted.map (fun _ => ({ busySlots := [] } : Participant)))) ∧
    clientGenerateSlots topicAtStage2 prefsThreeVoted 0 1 true
      ≠ RegenResult.lockedError := by
  refine ⟨by decide, rfl, ?_⟩
  intro h
  exact RegenResult.noConfusion h

/-- C7 (amended): the lock gates only the UI — `SchedulingPanel` renders the
regenerate button only when `isOwner && !isLocked` — while `generateSlots`
itself never consults the lock: called in a locked state it still succeeds
(returns the generated slots), and no code path produces a `LockedError`. -/
theorem C7_regenerate_ignores_lock (topic : Topic) (preferences : PrefMap)
    (t dow0 : Nat) :
    (isSlotGenerationLocked topic preferences = true →
      clientGenerateSlots topic preferences t dow0 true
        = RegenResult.ok (generateSlots t dow0 topic.duration
            (schedulingWindowDaysOf topic)
            (preferences.map (fun _ => ({ busySlots := [] } : Participant))))) ∧
    (∀ fetchOk, clientGenerateSlots topic preferences t dow0 fetchOk
        ≠ RegenResult.lockedError) ∧
    showRegenerateControl true true = false ∧
    showRegenerateControl true false = true := by
  refine ⟨fun _ => rfl, ?_, rfl, rfl⟩
  intro fetchOk
  cases fetchOk with
  | true => exact fun h => RegenResult.noConfusion h
  | false => exact fun h => RegenResult.noConfusion h

/-- C7 witness: the amended statement instantiated in the concrete locked
state of the counterexample. -/
theorem C7_regenerate_ignores_lock_witness :
    (isSlotGenerationLocked topicAtStage2 prefsThreeVoted = true →
      clientGenerateSlots topicAtStage2 prefsThreeVoted 0 1 true
        = RegenResult.ok (generateSlots 0 1 topicAtStage2.duration
            (schedulingWindowDaysOf topicAtStage2)
            (prefsThreeVoted.map (fun _ => ({ busySlots := [] } : Participant))))) ∧
    (∀ fetchOk, clientGenerateSlots topicAtStage2 prefsThreeVoted 0 1 fetchOk
        ≠ RegenResult.lockedError) ∧
    showRegenerateControl true true = false ∧
    showRegenerateControl true false = true :=
  C7_regenerate_ignores_lock topicAtStage2 prefsThreeVoted 0 1

/-- C8 counterexample: with `minParticipants = 0` and a recurring session
without recurrence — two of the claim's rejection conditions —
`createTopic` still succeeds and returns a stage-1 topic instead of failing
with a ValidationError. -/
theorem C8_counterexample :
    invalidFields.minParticipants < 1 ∧
    invalidFields.type = TopicType.recurring ∧
    invalidFields.recurrence = none ∧
    (createTopic (some "pubOwner") "topic_3" 0 invalidFields).isOk = true ∧
    ((createTopic (some "pubOwner") "topic_3" 0 invalidFields).toOption.map
        (fun p => p.1.stage)) = some 1 :=
  ⟨by decide, rfl, rfl, rfl, rfl⟩

/-- C8 (amended): `createTopic` performs no field validation at all — for
every submitted field values it succeeds (when a signed-in identity exists),
returning the created topic at stage 1 with the fields copied verbatim; the
only failure is the unauthenticated case. -/
theorem C8_createTopic_no_validation (auth : Option String) (id : String)
    (now : Nat) (f : TopicFields) :
    (auth = none → (createTopic auth id now f).isOk = false) ∧
    (∀ pub, auth = some pub →
      ((createTopic auth id now f).toOption.map
          (fun p => (p.1.stage, p.1.minParticipants, p.1.recurrence,
            p.1.maxParticipants, p.1.type, p.2.stage)))
        = some (1, f.minParticipants, f.recurrence, f.maxParticipants,
            f.type, 1)) := by
  constructor
  · rintro rfl
    rfl
  · rintro pub rfl
    rfl

/-- C8 witness: the amended statement instantiated at the counterexample's
authenticated call. -/
theorem C8_createTopic_no_validation_witness :
    ((some "pubOwner" : Option String) = none →
      (createTopic (some "pubOwner") "topic_3" 0 invalidFields).isOk = false) ∧
    (∀ pub, (some "pubOwner" : Option String) = some pub →
      ((createTopic (some "pubOwner") "topic_3" 0 invalidFields).toOption.map
          (fun p => (p.1.stage, p.1.minParticipants, p.1.recurrence,
            p.1.maxParticipants, p.1.type, p.2.stage)))
        = some (1, invalidFields.minParticipants, invalidFields.recurrence,
            invalidFields.maxParticipants, invalidFields.type, 1)) :=
  C8_createTopic_no_validation (some "pubOwner") "topic_3" 0 invalidFields

/-- C2 witness: the recompute characterization at the counterexample's
concrete topic and preferences. -/
theorem C2_lock_recomputed_witness :
    (isSlotGenerationLocked topicAtStage2 prefsThreeVoted = true ↔
      lockAfterSelectionsOf topicAtStage2 ≤
        (prefsThreeVoted.countP (fun p => ¬ p.2.selectedSlots.isEmpty))) ∧
    (topicAtStage2.schedulingConfig = none →
      lockAfterSelectionsOf topicAtStage2 = 3) :=
  C2_lock_recomputed topicAtStage2 prefsThreeVoted

/-- C3 witness: a concrete three-event delivery (owner interest, one other
live interest, one tombstone) and its reversal. -/
theorem C3_interest_count_witness :
    (eventsSample.map Prod.fst).Nodup ∧ eventsSample.Perm eventsSampleRev ∧
    ((interestCountFor "pubOwner" (buildInterestKeys eventsSample)
        = eventsSample.countP (fun e => e.2.isSome && (e.1 != "pubOwner"))) ∧
    (interestCountFor "pubOwner" (buildInterestKeys eventsSampleRev)
        = interestCountFor "pubOwner" (buildInterestKeys eventsSample)) ∧
    (topicAtStage1.stage = 1 → topicAtStage1.presenterPub = "pubOwner" →
      topicAtStage1.minParticipants
          ≤ interestCountFor topicAtStage1.presenterPub (buildInterestKeys eventsSample) →
      autoTransitionWrites (some "pubOwner") [topicAtStage1]
          [(topicAtStage1.id, buildInterestKeys eventsSample)]
        = [⟨WriteTarget.userSpace, topicAtStage1.id, 2⟩,
           ⟨WriteTarget.publicSpace, topicAtStage1.id, 2⟩])) :=
  ⟨by decide, by decide,
   C3_interest_count_and_auto_transition "pubOwner" "pubOwner" topicAtStage1
     eventsSample eventsSampleRev (by decide) (by decide)⟩

/-- C10 witness: a non-owner identity evaluating the effect over one topic
it does not own. -/
theorem C10_auto_transition_owner_only_witness :
    (([topicAtStage1].map Topic.id).Nodup) ∧
    ((∀ w ∈ autoTransitionWrites (some "pubX") [topicAtStage1]
          [("topic_0", ["pubA"])],
        ∃ tp ∈ [topicAtStage1], tp.id = w.topicId ∧ tp.presenterPub = "pubX" ∧
          tp.stage = 1 ∧ w.stage = 2) ∧
    (∀ topic ∈ [topicAtStage1], topic.presenterPub ≠ "pubX" →
        ∀ w ∈ autoTransitionWrites (some "pubX") [topicAtStage1]
            [("topic_0", ["pubA"])],
          w.topicId ≠ topic.id) ∧
    autoTransitionWrites none [topicAtStage1] [("topic_0", ["pubA"])] = []) :=
  ⟨by decide,
   C10_auto_transition_owner_only "pubX" [topicAtStage1]
     [("topic_0", ["pubA"])] (by decide)⟩

end RallyRound
